import Mathlib

/-!
Shallow embedding of the wire codec of `rust-vnc` (`src/protocol.rs`).

A byte stream is a `List Byte` with `Byte := Fin 256`.  Each `read_from`
consumes bytes from the front of the list and returns the decoded value
together with the remaining bytes, or an error; each `write_to` produces the
emitted bytes.  The primitives below model the `byteorder` calls
(`read_u8`, `read_u16::<BigEndian>`, …) and `Read::read_exact`.
-/

namespace RustVnc

set_option maxRecDepth 10000

set_option maxHeartbeats 1600000

abbrev Byte := Fin 256

/-- The error kinds of the crate's `Error` type that the codec can produce. -/
inductive VncError where
  | IoError : VncError
  | Disconnected : VncError
  | Unexpected (what : String) : VncError
deriving DecidableEq

def readU8 : List Byte → Except VncError (Byte × List Byte)
  | [] => .error .IoError
  | b :: rest => .ok (b, rest)

def readU16 : List Byte → Except VncError (Fin 65536 × List Byte)
  | a :: b :: rest =>
      .ok (⟨a.val * 256 + b.val, by have ha := a.isLt; have hb := b.isLt; omega⟩, rest)
  | _ => .error .IoError

def readU32 : List Byte → Except VncError (Fin 4294967296 × List Byte)
  | a :: b :: c :: d :: rest =>
      .ok (⟨((a.val * 256 + b.val) * 256 + c.val) * 256 + d.val, by
        have ha := a.isLt; have hb := b.isLt; have hc := c.isLt; have hd := d.isLt; omega⟩,
        rest)
  | _ => .error .IoError

/-- `read_i32::<BigEndian>`: four big-endian bytes, two's complement. -/
def readI32 : List Byte → Except VncError (Int × List Byte)
  | a :: b :: c :: d :: rest =>
      let m : Nat := ((a.val * 256 + b.val) * 256 + c.val) * 256 + d.val
      .ok (if m < 2147483648 then (m : Int) else (m : Int) - 4294967296, rest)
  | _ => .error .IoError

/-- `read_exact` into an `n`-byte scratch buffer: drop `n` bytes. -/
def readExact : Nat → List Byte → Except VncError (List Byte)
  | 0, l => .ok l
  | _ + 1, [] => .error .IoError
  | n + 1, _ :: l => readExact n l

/-- `read_exact` into an `n`-byte buffer whose contents are kept. -/
def readChunk : Nat → List Byte → Except VncError (List Byte × List Byte)
  | 0, l => .ok ([], l)
  | _ + 1, [] => .error .IoError
  | n + 1, b :: l =>
      match readChunk n l with
      | .ok (xs, rest) => .ok (b :: xs, rest)
      | .error e => .error e

def castU8 (n : Nat) : Byte := ⟨n % 256, by omega⟩

def castU16 (n : Nat) : Fin 65536 := ⟨n % 65536, by omega⟩

def castU32 (n : Nat) : Fin 4294967296 := ⟨n % 4294967296, by omega⟩

def writeU8 (b : Byte) : List Byte := [b]

def writeU16 (n : Fin 65536) : List Byte :=
  [⟨n.val / 256, by have h := n.isLt; omega⟩, ⟨n.val % 256, by omega⟩]

def writeU32 (n : Fin 4294967296) : List Byte :=
  [⟨n.val / 16777216, by have h := n.isLt; omega⟩,
   ⟨n.val / 65536 % 256, by omega⟩,
   ⟨n.val / 256 % 256, by omega⟩,
   ⟨n.val % 256, by omega⟩]

/-- `write_i32::<BigEndian>`: the two's-complement bytes of `n mod 2^32`. -/
def writeI32 (n : Int) : List Byte := writeU32 (castU32 (n % 4294967296).toNat)

def writeBool (b : Bool) : List Byte := [if b then 1 else 0]

theorem readU8_writeU8 (b : Byte) (rest : List Byte) :
    readU8 (writeU8 b ++ rest) = .ok (b, rest) := rfl

theorem readU16_writeU16 (n : Fin 65536) (rest : List Byte) :
    readU16 (writeU16 n ++ rest) = .ok (n, rest) := by
  simp only [writeU16, List.cons_append, List.nil_append, readU16]
  congr 1
  refine Prod.ext ?_ rfl
  exact Fin.ext (by have h := n.isLt; simp; omega)

theorem readU32_writeU32 (n : Fin 4294967296) (rest : List Byte) :
    readU32 (writeU32 n ++ rest) = .ok (n, rest) := by
  simp only [writeU32, List.cons_append, List.nil_append, readU32]
  congr 1
  refine Prod.ext ?_ rfl
  exact Fin.ext (by have h := n.isLt; simp; omega)

theorem readI32_writeI32 (n : Int) (h1 : -2147483648 ≤ n) (h2 : n < 2147483648)
    (rest : List Byte) : readI32 (writeI32 n ++ rest) = .ok (n, rest) := by
  have hm : (0 : Int) ≤ n % 4294967296 := Int.emod_nonneg n (by norm_num)
  have hm2 : n % 4294967296 < 4294967296 := Int.emod_lt_of_pos n (by norm_num)
  have hv : (castU32 (n % 4294967296).toNat).val = (n % 4294967296).toNat := by
    simp [castU32]; omega
  unfold writeI32
  have hw := readU32_writeU32 (castU32 (n % 4294967296).toNat) rest
  unfold readU32 at hw
  unfold readI32
  rcases hl : writeU32 (castU32 (n % 4294967296).toNat) with _ | ⟨a, tl⟩
  · simp [writeU32] at hl
  rcases tl with _ | ⟨b, tl⟩
  · simp [writeU32] at hl
  rcases tl with _ | ⟨c, tl⟩
  · simp [writeU32] at hl
  rcases tl with _ | ⟨d, tl⟩
  · simp [writeU32] at hl
  rcases tl with _ | ⟨e, tl⟩
  swap
  · simp [writeU32] at hl
  rw [hl] at hw
  simp only [List.cons_append, List.nil_append] at hw ⊢
  have hval : ((a.val * 256 + b.val) * 256 + c.val) * 256 + d.val
      = (n % 4294967296).toNat := by
    have := hw
    rw [Except.ok.injEq, Prod.mk.injEq] at this
    have h3 : (⟨((a.val * 256 + b.val) * 256 + c.val) * 256 + d.val, by
        have ha := a.isLt; have hb := b.isLt; have hc := c.isLt; have hd := d.isLt
        omega⟩ : Fin 4294967296) = castU32 (n % 4294967296).toNat := this.1
    have := congrArg Fin.val h3
    simpa [hv] using this
  rw [Except.ok.injEq, Prod.mk.injEq]
  refine ⟨?_, rfl⟩
  rw [hval]
  have hcase : n % 4294967296 = n ∨ n % 4294967296 = n + 4294967296 := by
    omega
  rcases hcase with hc | hc <;> rw [hc] <;> split <;> omega

/-! ## Version (`impl Message for Version`) -/

inductive Version where
  | Rfb33 : Version
  | Rfb37 : Version
  | Rfb38 : Version
deriving DecidableEq

/-- The bytes of the ASCII literal "RFB 003.003\n". -/
def rfb33Bytes : List Byte := [82, 70, 66, 32, 48, 48, 51, 46, 48, 48, 51, 10]

/-- The bytes of the ASCII literal "RFB 003.007\n". -/
def rfb37Bytes : List Byte := [82, 70, 66, 32, 48, 48, 51, 46, 48, 48, 55, 10]

/-- The bytes of the ASCII literal "RFB 003.008\n". -/
def rfb38Bytes : List Byte := [82, 70, 66, 32, 48, 48, 51, 46, 48, 48, 56, 10]

/-- The bytes of the ASCII literal "RFB 003.889\n" (Apple remote desktop). -/
def rfb889Bytes : List Byte := [82, 70, 66, 32, 48, 48, 51, 46, 56, 56, 57, 10]

def Version.read_from : List Byte → Except VncError (Version × List Byte)
  | b0 :: b1 :: b2 :: b3 :: b4 :: b5 :: b6 :: b7 :: b8 :: b9 :: b10 :: b11 :: rest =>
      let buf : List Byte := [b0, b1, b2, b3, b4, b5, b6, b7, b8, b9, b10, b11]
      if buf = rfb33Bytes then .ok (.Rfb33, rest)
      else if buf = rfb37Bytes then .ok (.Rfb37, rest)
      else if buf = rfb38Bytes then .ok (.Rfb38, rest)
      else if buf = rfb889Bytes then .ok (.Rfb38, rest)
      else .error (.Unexpected ("protocol version"))
  | _ => .error .IoError

def Version.write_to : Version → List Byte
  | .Rfb33 => rfb33Bytes
  | .Rfb37 => rfb37Bytes
  | .Rfb38 => rfb38Bytes

/-! ## SecurityType, SecurityTypes, SecurityResult -/

inductive SecurityType where
  | Unknown (n : Byte) : SecurityType
  | Invalid : SecurityType
  | None : SecurityType
  | VncAuthentication : SecurityType
  | AppleRemoteDesktop : SecurityType
deriving DecidableEq

def SecurityType.read_from (l : List Byte) : Except VncError (SecurityType × List Byte) := do
  let (security_type, l) ← readU8 l
  if security_type.val = 0 then pure (.Invalid, l)
  else if security_type.val = 1 then pure (.None, l)
  else if security_type.val = 2 then pure (.VncAuthentication, l)
  else if security_type.val = 30 then pure (.AppleRemoteDesktop, l)
  else pure (.Unknown security_type, l)

def SecurityType.write_to : SecurityType → List Byte
  | .Invalid => writeU8 0
  | .None => writeU8 1
  | .VncAuthentication => writeU8 2
  | .AppleRemoteDesktop => writeU8 30
  | .Unknown n => writeU8 n

structure SecurityTypes where
  types : List SecurityType
deriving DecidableEq

def readSecurityTypeList : Nat → List Byte → Except VncError (List SecurityType × List Byte)
  | 0, l => .ok ([], l)
  | n + 1, l => do
      let (t, l) ← SecurityType.read_from l
      let (ts, l) ← readSecurityTypeList n l
      pure (t :: ts, l)

def SecurityTypes.read_from (l : List Byte) : Except VncError (SecurityTypes × List Byte) := do
  let (count, l) ← readU8 l
  let (security_types, l) ← readSecurityTypeList count.val l
  pure (⟨security_types⟩, l)

def SecurityTypes.write_to (s : SecurityTypes) : List Byte :=
  writeU8 (castU8 s.types.length) ++ (s.types.map SecurityType.write_to).flatten

inductive SecurityResult where
  | Succeeded : SecurityResult
  | Failed : SecurityResult
deriving DecidableEq

def SecurityResult.read_from (l : List Byte) : Except VncError (SecurityResult × List Byte) := do
  let (result, l) ← readU32 l
  if result.val = 0 then pure (.Succeeded, l)
  else if result.val = 1 then pure (.Failed, l)
  else .error (.Unexpected ("security result"))

def SecurityResult.write_to : SecurityResult → List Byte
  | .Succeeded => writeU32 0
  | .Failed => writeU32 1

/-! ## PixelFormat -/

structure PixelFormat where
  bits_per_pixel : Byte
  depth : Byte
  big_endian : Bool
  true_colour : Bool
  red_max : Fin 65536
  green_max : Fin 65536
  blue_max : Fin 65536
  red_shift : Byte
  green_shift : Byte
  blue_shift : Byte
deriving DecidableEq

def PixelFormat.read_from (l : List Byte) : Except VncError (PixelFormat × List Byte) := do
  let (bits_per_pixel, l) ← readU8 l
  let (depth, l) ← readU8 l
  let (be, l) ← readU8 l
  let (tc, l) ← readU8 l
  let (red_max, l) ← readU16 l
  let (green_max, l) ← readU16 l
  let (blue_max, l) ← readU16 l
  let (red_shift, l) ← readU8 l
  let (green_shift, l) ← readU8 l
  let (blue_shift, l) ← readU8 l
  let l ← readExact 3 l
  pure ({ bits_per_pixel := bits_per_pixel, depth := depth,
          big_endian := be.val != 0, true_colour := tc.val != 0,
          red_max := red_max, green_max := green_max, blue_max := blue_max,
          red_shift := red_shift, green_shift := green_shift,
          blue_shift := blue_shift }, l)

def PixelFormat.write_to (pf : PixelFormat) : List Byte :=
  writeU8 pf.bits_per_pixel ++ writeU8 pf.depth ++
  writeBool pf.big_endian ++ writeBool pf.true_colour ++
  writeU16 pf.red_max ++ writeU16 pf.green_max ++ writeU16 pf.blue_max ++
  writeU8 pf.red_shift ++ writeU8 pf.green_shift ++ writeU8 pf.blue_shift ++
  [0, 0, 0]

/-! ## Encoding -/

inductive Encoding where
  | Unknown (n : Int) : Encoding
  | Raw : Encoding
  | CopyRect : Encoding
  | Rre : Encoding
  | CoRre : Encoding
  | Hextile : Encoding
  | Zlib : Encoding
  | Tight : Encoding
  | ZlibHex : Encoding
  | Zrle : Encoding
  | Jpeg (n : Int) : Encoding
  | DesktopSize : Encoding
  | LastRect : Encoding
  | PointerPosition : Encoding
  | RichCursor : Encoding
  | XCursor : Encoding
  | CompressionLevel (n : Int) : Encoding
  | PointerMotion : Encoding
  | ExtendedKeyEvent : Encoding
  | Audio : Encoding
  | TightPng : Encoding
  | Led : Encoding
  | Gii : Encoding
  | DesktopName : Encoding
  | ExtendedDesktopSize : Encoding
  | Xvp : Encoding
  | Fence : Encoding
  | ContinuousUpdate : Encoding
  | CursorWithAlpha : Encoding
  | JpegFineGrained (n : Int) : Encoding
  | JpegSubSampling (n : Int) : Encoding
  | VmwareCursor : Encoding
  | VmwareCursorState : Encoding
  | VmwareCursorPosition : Encoding
  | VmwareKeyRepeat : Encoding
  | VmwareLed : Encoding
  | VmwareDisplayMode : Encoding
  | VmwareVMState : Encoding
  | ExtendedClipboard : Encoding
deriving DecidableEq

/-- The `match encoding { ... }` arms of `Encoding::read_from`, in source order. -/
def Encoding.ofWire (n : Int) : Encoding :=
  if n = 0 then .Raw
  else if n = 1 then .CopyRect
  else if n = 2 then .Rre
  else if n = 4 then .CoRre
  else if n = 5 then .Hextile
  else if n = 6 then .Zlib
  else if n = 7 then .Tight
  else if n = 8 then .ZlibHex
  else if n = 16 then .Zrle
  else if -32 ≤ n ∧ n ≤ -23 then .Jpeg n
  else if n = -223 then .DesktopSize
  else if n = -224 then .LastRect
  else if n = -232 then .PointerPosition
  else if n = -239 then .RichCursor
  else if n = -240 then .XCursor
  else if -256 ≤ n ∧ n ≤ -247 then .CompressionLevel n
  else if n = -257 then .PointerMotion
  else if n = -258 then .ExtendedKeyEvent
  else if n = -259 then .Audio
  else if n = -260 then .TightPng
  else if n = -261 then .Led
  else if n = -305 then .Gii
  else if n = -307 then .DesktopName
  else if n = -308 then .ExtendedDesktopSize
  else if n = -309 then .Xvp
  else if n = -312 then .Fence
  else if n = -313 then .ContinuousUpdate
  else if n = -314 then .CursorWithAlpha
  else if -512 ≤ n ∧ n ≤ -412 then .JpegFineGrained n
  else if -768 ≤ n ∧ n ≤ -763 then .JpegSubSampling n
  else if n = 0x574d5664 then .VmwareCursor
  else if n = 0x574d5665 then .VmwareCursorState
  else if n = 0x574d5666 then .VmwareCursorPosition
  else if n = 0x574d5667 then .VmwareKeyRepeat
  else if n = 0x574d5668 then .VmwareLed
  else if n = 0x574d5669 then .VmwareDisplayMode
  else if n = 0x574d566a then .VmwareVMState
  else if n = -1063131698 then .ExtendedClipboard
  else .Unknown n

def Encoding.read_from (l : List Byte) : Except VncError (Encoding × List Byte) := do
  let (encoding, l) ← readI32 l
  pure (Encoding.ofWire encoding, l)

/-- The `match self { ... }` of `Encoding::write_to`, producing the i32 code. -/
def Encoding.toWire : Encoding → Int
  | .Raw => 0
  | .CopyRect => 1
  | .Rre => 2
  | .CoRre => 4
  | .Hextile => 5
  | .Zlib => 6
  | .Tight => 7
  | .ZlibHex => 8
  | .Zrle => 16
  | .Jpeg n => n
  | .DesktopSize => -223
  | .LastRect => -224
  | .PointerPosition => -232
  | .RichCursor => -239
  | .PointerMotion => -257
  | .ExtendedKeyEvent => -258
  | .Audio => -259
  | .TightPng => -260
  | .Led => -261
  | .XCursor => -240
  | .CompressionLevel n => n
  | .Gii => -305
  | .DesktopName => -307
  | .ExtendedDesktopSize => -308
  | .Xvp => -309
  | .Fence => -312
  | .ContinuousUpdate => -313
  | .CursorWithAlpha => -314
  | .JpegFineGrained n => n
  | .JpegSubSampling n => n
  | .VmwareCursor => 0x574d5664
  | .VmwareCursorState => 0x574d5665
  | .VmwareCursorPosition => 0x574d5666
  | .VmwareKeyRepeat => 0x574d5667
  | .VmwareLed => 0x574d5668
  | .VmwareDisplayMode => 0x574d5669
  | .VmwareVMState => 0x574d566a
  | .ExtendedClipboard => -1063131698
  | .Unknown n => n

def Encoding.write_to (e : Encoding) : List Byte := writeI32 e.toWire

/-! ## Strings (`impl Message for String`) -/

/-- A Rust `String` as its list of character code points. -/
abbrev VncString := List Nat

/-- The UTF-8 encoded size of one code point, as used by Rust's `String::len`. -/
def utf8Len (c : Nat) : Nat :=
  if c < 128 then 1 else if c < 2048 then 2 else if c < 65536 then 3 else 4

/-- Rust's `String::len`: the UTF-8 byte length of the string. -/
def VncString.utf8Length (s : VncString) : Nat := (s.map utf8Len).sum

def VncString.read_from (l : List Byte) : Except VncError (VncString × List Byte) := do
  let (length, l) ← readU32 l
  let (string, l) ← readChunk length.val l
  pure (string.map Fin.val, l)

def VncString.write_to (s : VncString) : List Byte :=
  writeU32 (castU32 s.utf8Length) ++ s.map castU8

/-! ## Colour -/

structure Colour where
  red : Fin 65536
  green : Fin 65536
  blue : Fin 65536
deriving DecidableEq

def Colour.read_from (l : List Byte) : Except VncError (Colour × List Byte) := do
  let (red, l) ← readU16 l
  let (green, l) ← readU16 l
  let (blue, l) ← readU16 l
  pure ({ red := red, green := green, blue := blue }, l)

def Colour.write_to (c : Colour) : List Byte :=
  writeU16 c.red ++ writeU16 c.green ++ writeU16 c.blue

/-! ## C2S messages -/

inductive C2S where
  | SetPixelFormat (pixel_format : PixelFormat) : C2S
  | SetEncodings (encodings : List Encoding) : C2S
  | FramebufferUpdateRequest (incremental : Bool)
      (x_position y_position width height : Fin 65536) : C2S
  | KeyEvent (down : Bool) (key : Fin 4294967296) : C2S
  | PointerEvent (button_mask : Byte) (x_position y_position : Fin 65536) : C2S
  | CutText (text : VncString) : C2S
  | ExtendedKeyEvent (down : Bool) (keysym keycode : Fin 4294967296) : C2S
deriving DecidableEq

def readEncodingList : Nat → List Byte → Except VncError (List Encoding × List Byte)
  | 0, l => .ok ([], l)
  | n + 1, l => do
      let (e, l) ← Encoding.read_from l
      let (es, l) ← readEncodingList n l
      pure (e :: es, l)

def C2S.read_from : List Byte → Except VncError (C2S × List Byte)
  | [] => .error .Disconnected
  | message_type :: l =>
    if message_type.val = 0 then do
      let l ← readExact 3 l
      let (pf, l) ← PixelFormat.read_from l
      pure (.SetPixelFormat pf, l)
    else if message_type.val = 2 then do
      let l ← readExact 1 l
      let (count, l) ← readU16 l
      let (encodings, l) ← readEncodingList count.val l
      pure (.SetEncodings encodings, l)
    else if message_type.val = 3 then do
      let (incremental, l) ← readU8 l
      let (x_position, l) ← readU16 l
      let (y_position, l) ← readU16 l
      let (width, l) ← readU16 l
      let (height, l) ← readU16 l
      pure (.FramebufferUpdateRequest (incremental.val != 0)
        x_position y_position width height, l)
    else if message_type.val = 4 then do
      let (down, l) ← readU8 l
      let l ← readExact 2 l
      let (key, l) ← readU32 l
      pure (.KeyEvent (down.val != 0) key, l)
    else if message_type.val = 5 then do
      let (button_mask, l) ← readU8 l
      let (x_position, l) ← readU16 l
      let (y_position, l) ← readU16 l
      pure (.PointerEvent button_mask x_position y_position, l)
    else if message_type.val = 6 then do
      let l ← readExact 3 l
      let (text, l) ← VncString.read_from l
      pure (.CutText text, l)
    else if message_type.val = 255 then do
      let (submessage_type, l) ← readU8 l
      if submessage_type.val = 0 then do
        let (down, l) ← readU16 l
        let (keysym, l) ← readU32 l
        let (keycode, l) ← readU32 l
        pure (.ExtendedKeyEvent (down.val != 0) keysym keycode, l)
      else .error (.Unexpected ("client to server QEMU submessage type"))
    else .error (.Unexpected ("client to server message type"))

def C2S.write_to : C2S → List Byte
  | .SetPixelFormat pixel_format =>
      writeU8 0 ++ [0, 0, 0] ++ pixel_format.write_to
  | .SetEncodings encodings =>
      writeU8 2 ++ [0] ++ writeU16 (castU16 encodings.length) ++
      (encodings.map Encoding.write_to).flatten
  | .FramebufferUpdateRequest incremental x_position y_position width height =>
      writeU8 3 ++ writeBool incremental ++ writeU16 x_position ++
      writeU16 y_position ++ writeU16 width ++ writeU16 height
  | .KeyEvent down key =>
      writeU8 4 ++ writeBool down ++ [0, 0] ++ writeU32 key
  | .PointerEvent button_mask x_position y_position =>
      writeU8 5 ++ writeU8 button_mask ++ writeU16 x_position ++
      writeU16 y_position
  | .CutText text =>
      text.write_to
  | .ExtendedKeyEvent down keysym keycode =>
      writeU8 255 ++ writeU8 0 ++ writeU16 (if down then 1 else 0) ++
      writeU32 keysym ++ writeU32 keycode

/-! ## S2C messages -/

inductive S2C where
  | FramebufferUpdate (count : Fin 65536) : S2C
  | SetColourMapEntries (first_colour : Fin 65536) (colours : List Colour) : S2C
  | Bell : S2C
  | CutText (text : VncString) : S2C
deriving DecidableEq

def readColourList : Nat → List Byte → Except VncError (List Colour × List Byte)
  | 0, l => .ok ([], l)
  | n + 1, l => do
      let (c, l) ← Colour.read_from l
      let (cs, l) ← readColourList n l
      pure (c :: cs, l)

def S2C.read_from : List Byte → Except VncError (S2C × List Byte)
  | [] => .error .Disconnected
  | message_type :: l =>
    if message_type.val = 0 then do
      let l ← readExact 1 l
      let (count, l) ← readU16 l
      pure (.FramebufferUpdate count, l)
    else if message_type.val = 1 then do
      let l ← readExact 1 l
      let (first_colour, l) ← readU16 l
      let (count, l) ← readU16 l
      let (colours, l) ← readColourList count.val l
      pure (.SetColourMapEntries first_colour colours, l)
    else if message_type.val = 2 then pure (.Bell, l)
    else if message_type.val = 3 then do
      let l ← readExact 3 l
      let (text, l) ← VncString.read_from l
      pure (.CutText text, l)
    else .error (.Unexpected ("server to client message type"))

def S2C.write_to : S2C → List Byte
  | .FramebufferUpdate count =>
      writeU8 0 ++ [0] ++ writeU16 count
  | .SetColourMapEntries first_colour colours =>
      writeU8 1 ++ [0] ++ writeU16 first_colour ++
      (colours.map Colour.write_to).flatten
  | .Bell => writeU8 2
  | .CutText text =>
      writeU8 3 ++ [0, 0, 0] ++ text.write_to

/-! ## Reduction lemmas for the `Except` monad and byte literals -/

theorem ok_bind {α β : Type} (a : α) (f : α → Except VncError β) :
    (Except.ok a : Except VncError α) >>= f = f a := rfl

theorem error_bind {α β : Type} (e : VncError) (f : α → Except VncError β) :
    (Except.error e : Except VncError α) >>= f = .error e := rfl

theorem byteVal0 : (0 : Byte).val = 0 := rfl

theorem byteVal1 : (1 : Byte).val = 1 := rfl

theorem byteVal2 : (2 : Byte).val = 2 := rfl

theorem byteVal3 : (3 : Byte).val = 3 := rfl

theorem byteVal4 : (4 : Byte).val = 4 := rfl

theorem byteVal5 : (5 : Byte).val = 5 := rfl

theorem byteVal6 : (6 : Byte).val = 6 := rfl

theorem byteVal255 : (255 : Byte).val = 255 := rfl

/-! ## No reader below the message-type dispatch produces `Disconnected` -/

theorem bind_no_disc {α β : Type} {x : Except VncError α}
    {f : α → Except VncError β} (hx : x ≠ .error .Disconnected)
    (hf : ∀ a, f a ≠ .error .Disconnected) :
    x >>= f ≠ .error .Disconnected := by
  cases x with
  | error e =>
      rw [error_bind]
      intro h
      injection h with h1
      exact hx (by rw [h1])
  | ok a => rw [ok_bind]; exact hf a

theorem pure_no_disc {α : Type} (a : α) :
    (pure a : Except VncError α) ≠ .error .Disconnected := fun h => nomatch h

theorem readU8_no_disc (l : List Byte) : readU8 l ≠ .error .Disconnected := by
  cases l <;> simp [readU8]

theorem readU16_no_disc (l : List Byte) : readU16 l ≠ .error .Disconnected := by
  rcases l with _ | ⟨a, _ | ⟨b, l⟩⟩ <;> simp [readU16]

theorem readU32_no_disc (l : List Byte) : readU32 l ≠ .error .Disconnected := by
  rcases l with _ | ⟨a, _ | ⟨b, _ | ⟨c, _ | ⟨d, l⟩⟩⟩⟩ <;> simp [readU32]

theorem readI32_no_disc (l : List Byte) : readI32 l ≠ .error .Disconnected := by
  rcases l with _ | ⟨a, _ | ⟨b, _ | ⟨c, _ | ⟨d, l⟩⟩⟩⟩ <;> simp [readI32]

theorem readExact_no_disc : ∀ (n : Nat) (l : List Byte),
    readExact n l ≠ .error .Disconnected := by
  intro n
  induction n with
  | zero => intro l; simp [readExact]
  | succ n ih =>
      intro l
      cases l with
      | nil => simp [readExact]
      | cons b l => simpa [readExact] using ih l

theorem readChunk_no_disc : ∀ (n : Nat) (l : List Byte),
    readChunk n l ≠ .error .Disconnected := by
  intro n
  induction n with
  | zero => intro l; simp [readChunk]
  | succ n ih =>
      intro l
      cases l with
      | nil => simp [readChunk]
      | cons b l =>
          simp only [readChunk]
          cases h : readChunk n l with
          | error e => have := ih l; rw [h] at this; simpa using this
          | ok a => simp

theorem pixelformat_read_no_disc (l : List Byte) :
    PixelFormat.read_from l ≠ .error .Disconnected := by
  unfold PixelFormat.read_from
  apply bind_no_disc (readU8_no_disc l)
  rintro ⟨b0, l⟩
  apply bind_no_disc (readU8_no_disc l)
  rintro ⟨b1, l⟩
  apply bind_no_disc (readU8_no_disc l)
  rintro ⟨b2, l⟩
  apply bind_no_disc (readU8_no_disc l)
  rintro ⟨b3, l⟩
  apply bind_no_disc (readU16_no_disc l)
  rintro ⟨r, l⟩
  apply bind_no_disc (readU16_no_disc l)
  rintro ⟨g, l⟩
  apply bind_no_disc (readU16_no_disc l)
  rintro ⟨b4, l⟩
  apply bind_no_disc (readU8_no_disc l)
  rintro ⟨rs, l⟩
  apply bind_no_disc (readU8_no_disc l)
  rintro ⟨gs, l⟩
  apply bind_no_disc (readU8_no_disc l)
  rintro ⟨bs, l⟩
  apply bind_no_disc (readExact_no_disc 3 l)
  intro l
  exact pure_no_disc _

theorem encoding_read_no_disc (l : List Byte) :
    Encoding.read_from l ≠ .error .Disconnected := by
  unfold Encoding.read_from
  apply bind_no_disc (readI32_no_disc l)
  rintro ⟨n, l⟩
  exact pure_no_disc _

theorem readEncodingList_no_disc : ∀ (n : Nat) (l : List Byte),
    readEncodingList n l ≠ .error .Disconnected := by
  intro n
  induction n with
  | zero => intro l; exact fun h => nomatch h
  | succ n ih =>
      intro l
      unfold readEncodingList
      apply bind_no_disc (encoding_read_no_disc l)
      rintro ⟨e, l⟩
      apply bind_no_disc (ih l)
      rintro ⟨es, l⟩
      exact pure_no_disc _

theorem vncstring_read_no_disc (l : List Byte) :
    VncString.read_from l ≠ .error .Disconnected := by
  unfold VncString.read_from
  apply bind_no_disc (readU32_no_disc l)
  rintro ⟨len, l⟩
  apply bind_no_disc (readChunk_no_disc len.val l)
  rintro ⟨s, l⟩
  exact pure_no_disc _

theorem colour_read_no_disc (l : List Byte) :
    Colour.read_from l ≠ .error .Disconnected := by
  unfold Colour.read_from
  apply bind_no_disc (readU16_no_disc l)
  rintro ⟨r, l⟩
  apply bind_no_disc (readU16_no_disc l)
  rintro ⟨g, l⟩
  apply bind_no_disc (readU16_no_disc l)
  rintro ⟨b, l⟩
  exact pure_no_disc _

theorem readColourList_no_disc : ∀ (n : Nat) (l : List Byte),
    readColourList n l ≠ .error .Disconnected := by
  intro n
  induction n with
  | zero => intro l; exact fun h => nomatch h
  | succ n ih =>
      intro l
      unfold readColourList
      apply bind_no_disc (colour_read_no_disc l)
      rintro ⟨c, l⟩
      apply bind_no_disc (ih l)
      rintro ⟨cs, l⟩
      exact pure_no_disc _

theorem c2s_read_no_disc (t : Byte) (l : List Byte) :
    C2S.read_from (t :: l) ≠ .error .Disconnected := by
  simp only [C2S.read_from]
  split_ifs
  · apply bind_no_disc (readExact_no_disc 3 l)
    intro l
    apply bind_no_disc (pixelformat_read_no_disc l)
    rintro ⟨pf, l⟩
    exact pure_no_disc _
  · apply bind_no_disc (readExact_no_disc 1 l)
    intro l
    apply bind_no_disc (readU16_no_disc l)
    rintro ⟨count, l⟩
    apply bind_no_disc (readEncodingList_no_disc count.val l)
    rintro ⟨es, l⟩
    exact pure_no_disc _
  · apply bind_no_disc (readU8_no_disc l)
    rintro ⟨inc, l⟩
    apply bind_no_disc (readU16_no_disc l)
    rintro ⟨x, l⟩
    apply bind_no_disc (readU16_no_disc l)
    rintro ⟨y, l⟩
    apply bind_no_disc (readU16_no_disc l)
    rintro ⟨w, l⟩
    apply bind_no_disc (readU16_no_disc l)
    rintro ⟨hgt, l⟩
    exact pure_no_disc _
  · apply bind_no_disc (readU8_no_disc l)
    rintro ⟨d, l⟩
    apply bind_no_disc (readExact_no_disc 2 l)
    intro l
    apply bind_no_disc (readU32_no_disc l)
    rintro ⟨k, l⟩
    exact pure_no_disc _
  · apply bind_no_disc (readU8_no_disc l)
    rintro ⟨m, l⟩
    apply bind_no_disc (readU16_no_disc l)
    rintro ⟨x, l⟩
    apply bind_no_disc (readU16_no_disc l)
    rintro ⟨y, l⟩
    exact pure_no_disc _
  · apply bind_no_disc (readExact_no_disc 3 l)
    intro l
    apply bind_no_disc (vncstring_read_no_disc l)
    rintro ⟨s, l⟩
    exact pure_no_disc _
  · apply bind_no_disc (readU8_no_disc l)
    rintro ⟨sub, l⟩
    split_ifs
    · apply bind_no_disc (readU16_no_disc l)
      rintro ⟨d, l⟩
      apply bind_no_disc (readU32_no_disc l)
      rintro ⟨ks, l⟩
      apply bind_no_disc (readU32_no_disc l)
      rintro ⟨kc, l⟩
      exact pure_no_disc _
    · exact fun h => by injection h with h1; exact VncError.noConfusion h1
  · exact fun h => by injection h with h1; exact VncError.noConfusion h1

theorem s2c_read_no_disc (t : Byte) (l : List Byte) :
    S2C.read_from (t :: l) ≠ .error .Disconnected := by
  simp only [S2C.read_from]
  split_ifs
  · apply bind_no_disc (readExact_no_disc 1 l)
    intro l
    apply bind_no_disc (readU16_no_disc l)
    rintro ⟨count, l⟩
    exact pure_no_disc _
  · apply bind_no_disc (readExact_no_disc 1 l)
    intro l
    apply bind_no_disc (readU16_no_disc l)
    rintro ⟨fc, l⟩
    apply bind_no_disc (readU16_no_disc l)
    rintro ⟨count, l⟩
    apply bind_no_disc (readColourList_no_disc count.val l)
    rintro ⟨cs, l⟩
    exact pure_no_disc _
  · exact pure_no_disc _
  · apply bind_no_disc (readExact_no_disc 3 l)
    intro l
    apply bind_no_disc (vncstring_read_no_disc l)
    rintro ⟨s, l⟩
    exact pure_no_disc _
  · exact fun h => by injection h with h1; exact VncError.noConfusion h1

/-! ## Round-trip helper lemmas -/

theorem pixelformat_roundtrip (pf : PixelFormat) (rest : List Byte) :
    PixelFormat.read_from (pf.write_to ++ rest) = .ok (pf, rest) := by
  obtain ⟨bpp, dep, be, tc, rm, gm, bm, rs, gs, bs⟩ := pf
  cases be <;> cases tc <;>
    simp [PixelFormat.write_to, PixelFormat.read_from, writeU8, writeU16,
          writeBool, readU8, readU16, readExact, ok_bind, Fin.ext_iff] <;>
    omega

/-- An encoding whose wire code decodes back to the same variant: the
parameterised variants must carry a code inside the range that
`Encoding::read_from` maps to them, and `Unknown` must carry an i32 code
matched by no other arm. -/
def Encoding.wireValid : Encoding → Bool
  | .Jpeg n => decide (-32 ≤ n ∧ n ≤ -23)
  | .CompressionLevel n => decide (-256 ≤ n ∧ n ≤ -247)
  | .JpegFineGrained n => decide (-512 ≤ n ∧ n ≤ -412)
  | .JpegSubSampling n => decide (-768 ≤ n ∧ n ≤ -763)
  | .Unknown n =>
      decide ((-2147483648 ≤ n ∧ n < 2147483648) ∧ Encoding.ofWire n = .Unknown n)
  | _ => true

set_option maxHeartbeats 2000000 in
theorem Encoding.ofWire_toWire (e : Encoding) (h : e.wireValid = true) :
    (-2147483648 ≤ e.toWire ∧ e.toWire < 2147483648) ∧
      Encoding.ofWire e.toWire = e := by
  cases e
  case Unknown n =>
    simp only [Encoding.wireValid, decide_eq_true_eq] at h
    exact ⟨⟨h.1.1, h.1.2⟩, h.2⟩
  case Jpeg n =>
    simp only [Encoding.wireValid, decide_eq_true_eq] at h
    obtain ⟨h1, h2⟩ := h
    simp only [Encoding.toWire]
    refine ⟨⟨by omega, by omega⟩, ?_⟩
    interval_cases n <;> decide
  case CompressionLevel n =>
    simp only [Encoding.wireValid, decide_eq_true_eq] at h
    obtain ⟨h1, h2⟩ := h
    simp only [Encoding.toWire]
    refine ⟨⟨by omega, by omega⟩, ?_⟩
    interval_cases n <;> decide
  case JpegFineGrained n =>
    simp only [Encoding.wireValid, decide_eq_true_eq] at h
    obtain ⟨h1, h2⟩ := h
    simp only [Encoding.toWire]
    refine ⟨⟨by omega, by omega⟩, ?_⟩
    interval_cases n <;> decide
  case JpegSubSampling n =>
    simp only [Encoding.wireValid, decide_eq_true_eq] at h
    obtain ⟨h1, h2⟩ := h
    simp only [Encoding.toWire]
    refine ⟨⟨by omega, by omega⟩, ?_⟩
    interval_cases n <;> decide
  all_goals exact ⟨by decide, by decide⟩

/-- A security type whose wire byte decodes back to the same variant:
`Unknown` must not carry one of the bytes owned by the named variants. -/
def SecurityType.wireFaithful : SecurityType → Bool
  | .Unknown n => decide (n.val ≠ 0 ∧ n.val ≠ 1 ∧ n.val ≠ 2 ∧ n.val ≠ 30)
  | _ => true

theorem securitytype_roundtrip (t : SecurityType) (h : t.wireFaithful = true)
    (rest : List Byte) :
    SecurityType.read_from (t.write_to ++ rest) = .ok (t, rest) := by
  cases t
  case Unknown n =>
    simp only [SecurityType.wireFaithful, decide_eq_true_eq] at h
    obtain ⟨h0, h1, h2, h30⟩ := h
    simp [SecurityType.read_from, SecurityType.write_to, writeU8, readU8,
          ok_bind, h0, h1, h2, h30, pure, Except.pure]
  all_goals rfl

theorem readSecurityTypeList_roundtrip (ts : List SecurityType)
    (hf : ∀ t ∈ ts, t.wireFaithful = true) (rest : List Byte) :
    readSecurityTypeList ts.length
      ((ts.map SecurityType.write_to).flatten ++ rest) = .ok (ts, rest) := by
  induction ts with
  | nil => rfl
  | cons t ts ih =>
      simp only [List.length_cons, List.map_cons, List.flatten_cons,
        List.append_assoc]
      simp only [readSecurityTypeList,
        securitytype_roundtrip t (hf t (by simp)), ok_bind]
      simp [ih (fun u hu => hf u (by simp [hu])), ok_bind, pure, Except.pure]

theorem readSecurityTypeList_len : ∀ (n : Nat) (l : List Byte)
    (out : List SecurityType) (rest : List Byte),
    readSecurityTypeList n l = .ok (out, rest) → out.length = n := by
  intro n
  induction n with
  | zero =>
      intro l out rest h
      simp only [readSecurityTypeList, Except.ok.injEq, Prod.mk.injEq] at h
      simp [h.1.symm]
  | succ n ih =>
      intro l out rest h
      simp only [readSecurityTypeList] at h
      cases ht : SecurityType.read_from l with
      | error e => rw [ht, error_bind] at h; exact Except.noConfusion h
      | ok a =>
        obtain ⟨t, l1⟩ := a
        rw [ht, ok_bind] at h
        cases hts : readSecurityTypeList n l1 with
        | error e => rw [hts, error_bind] at h; exact Except.noConfusion h
        | ok b =>
          obtain ⟨ts, l2⟩ := b
          rw [hts, ok_bind] at h
          simp only [pure, Except.pure, Except.ok.injEq, Prod.mk.injEq] at h
          have := ih l1 ts l2 hts
          simp [h.1.symm, this]

theorem SecurityType.write_to_length (t : SecurityType) :
    (SecurityType.write_to t).length = 1 := by
  cases t <;> rfl

theorem securityTypesBody_length (ts : List SecurityType) :
    ((ts.map SecurityType.write_to).flatten).length = ts.length := by
  induction ts with
  | nil => rfl
  | cons t ts ih =>
      simp [List.flatten_cons, SecurityType.write_to_length, ih]
      omega

/-- C1 (code_bug evidence): `C2S::write_to` for `CutText` emits only the
length-prefixed string, with no type byte 6 and no three padding bytes, so
`C2S::read_from` does not decode the produced bytes back to the message. -/
theorem c1_cuttext_write_omits_header :
    (∀ text : VncString, C2S.write_to (.CutText text) = VncString.write_to text) ∧
    C2S.write_to (.CutText []) = [0, 0, 0, 0] ∧
    C2S.read_from (C2S.write_to (.CutText [])) = .error .IoError :=
  ⟨fun _ => rfl, rfl, rfl⟩

/-- C2 (code_bug evidence): `S2C::write_to` for `SetColourMapEntries` emits the
type byte, one pad byte, `first_colour` and the colour records but no u16
colour count, so `S2C::read_from` cannot decode the produced bytes back. -/
theorem c2_setcolourmap_write_omits_count :
    (∀ (fc : Fin 65536) (colours : List Colour),
      S2C.write_to (.SetColourMapEntries fc colours) =
        [1, 0] ++ writeU16 fc ++ (colours.map Colour.write_to).flatten) ∧
    S2C.write_to (.SetColourMapEntries 0 [⟨1, 2, 3⟩]) =
      [1, 0, 0, 0, 0, 1, 0, 2, 0, 3] ∧
    S2C.read_from (S2C.write_to (.SetColourMapEntries 0 [⟨1, 2, 3⟩])) =
      .error .IoError :=
  ⟨fun _ _ => rfl, rfl, rfl⟩

/-- C3 (code_bug evidence): the empty string round-trips, but decoding the
5 bytes 00 00 00 01 80 yields the one-character Latin-1 string U+0080, and
re-encoding it emits a length prefix of 2 (the UTF-8 byte length) with only
one payload byte, so the round trip is not bit-exact. -/
theorem c3_string_nonascii_roundtrip_fails :
    VncString.read_from [0, 0, 0, 0] = .ok ([], []) ∧
    VncString.write_to [] = [0, 0, 0, 0] ∧
    VncString.read_from [0, 0, 0, 1, 128] = .ok ([128], []) ∧
    VncString.write_to [128] = [0, 0, 0, 2, 128] ∧
    ([0, 0, 0, 2, 128] : List Byte) ≠ [0, 0, 0, 1, 128] :=
  ⟨rfl, rfl, rfl, rfl, by decide⟩

/-- C4 counterexample: `Unknown 0` is written as the wire code 0, which
`Encoding::read_from` decodes as `Raw`, so `Unknown(n)` does not round-trip
for every i32 `n`. -/
theorem c4_unknown_zero_decodes_as_raw :
    Encoding.read_from (Encoding.write_to (.Unknown 0)) = .ok (.Raw, []) ∧
    Encoding.Raw ≠ Encoding.Unknown 0 :=
  ⟨rfl, by decide⟩

/-- C4 (amended): every encoding whose wire code decodes back to the same
variant round-trips: all fixed variants, the range variants carrying a code
in their decode range, and `Unknown n` for an i32 code matched by no other
arm of `Encoding::read_from`. -/
theorem c4_encoding_roundtrip (e : Encoding) (rest : List Byte)
    (h : e.wireValid = true) :
    Encoding.read_from (Encoding.write_to e ++ rest) = .ok (e, rest) := by
  obtain ⟨⟨h1, h2⟩, h3⟩ := Encoding.ofWire_toWire e h
  simp only [Encoding.write_to, Encoding.read_from]
  rw [readI32_writeI32 _ h1 h2, ok_bind, h3]
  rfl

/-- C4 witness: the round trip evaluated at `Jpeg (-30)` and at `Unknown 3`. -/
theorem c4_encoding_roundtrip_witness :
    Encoding.read_from (Encoding.write_to (.Jpeg (-30)) ++ []) =
      .ok (.Jpeg (-30), []) ∧
    Encoding.read_from (Encoding.write_to (.Unknown 3) ++ []) =
      .ok (.Unknown 3, []) :=
  ⟨c4_encoding_roundtrip (.Jpeg (-30)) [] (by decide),
   c4_encoding_roundtrip (.Unknown 3) [] (by decide)⟩

/-- C5: reading a C2S or S2C message from an empty stream yields
`Disconnected`; once the type byte has been consumed the result is never
`Disconnected`, and truncation right after each valid type byte yields `Io`. -/
theorem c5_disconnected_only_at_stream_start :
    C2S.read_from [] = .error .Disconnected ∧
    S2C.read_from [] = .error .Disconnected ∧
    (∀ (t : Byte) (l : List Byte),
      C2S.read_from (t :: l) ≠ .error .Disconnected) ∧
    (∀ (t : Byte) (l : List Byte),
      S2C.read_from (t :: l) ≠ .error .Disconnected) ∧
    C2S.read_from [0] = .error .IoError ∧
    C2S.read_from [2] = .error .IoError ∧
    C2S.read_from [3] = .error .IoError ∧
    C2S.read_from [4] = .error .IoError ∧
    C2S.read_from [5] = .error .IoError ∧
    C2S.read_from [6] = .error .IoError ∧
    C2S.read_from [255] = .error .IoError ∧
    S2C.read_from [0] = .error .IoError ∧
    S2C.read_from [1] = .error .IoError ∧
    S2C.read_from [3] = .error .IoError :=
  ⟨rfl, rfl, c2s_read_no_disc, s2c_read_no_disc, rfl, rfl, rfl, rfl, rfl,
   rfl, rfl, rfl, rfl, rfl⟩

/-- C5 witness: a nonempty stream never yields `Disconnected`. -/
theorem c5_disconnected_only_at_stream_start_witness :
    C2S.read_from [9] ≠ .error .Disconnected :=
  c5_disconnected_only_at_stream_start.2.2.1 9 []

/-- C6: `Version::read_from` consumes exactly 12 bytes; the three canonical
version strings and the Apple alias decode to 3.3, 3.7, 3.8, 3.8, and every
other 12-byte sequence yields `Unexpected("protocol version")`. -/
theorem c6_version_read (b0 b1 b2 b3 b4 b5 b6 b7 b8 b9 b10 b11 : Byte)
    (rest : List Byte) :
    Version.read_from (rfb33Bytes ++ rest) = .ok (.Rfb33, rest) ∧
    Version.read_from (rfb37Bytes ++ rest) = .ok (.Rfb37, rest) ∧
    Version.read_from (rfb38Bytes ++ rest) = .ok (.Rfb38, rest) ∧
    Version.read_from (rfb889Bytes ++ rest) = .ok (.Rfb38, rest) ∧
    ([b0, b1, b2, b3, b4, b5, b6, b7, b8, b9, b10, b11] ≠ rfb33Bytes →
     [b0, b1, b2, b3, b4, b5, b6, b7, b8, b9, b10, b11] ≠ rfb37Bytes →
     [b0, b1, b2, b3, b4, b5, b6, b7, b8, b9, b10, b11] ≠ rfb38Bytes →
     [b0, b1, b2, b3, b4, b5, b6, b7, b8, b9, b10, b11] ≠ rfb889Bytes →
     Version.read_from
       ([b0, b1, b2, b3, b4, b5, b6, b7, b8, b9, b10, b11] ++ rest) =
       .error (.Unexpected ("protocol version"))) := by
  refine ⟨rfl, rfl, rfl, rfl, ?_⟩
  intro h1 h2 h3 h4
  simp [Version.read_from, h1, h2, h3, h4]

/-- C6 witness: twelve zero bytes are not a version string. -/
theorem c6_version_read_witness :
    Version.read_from ([0, 0, 0, 0, 0, 0, 0, 0, 0, 0, 0, 0] ++ []) =
      .error (.Unexpected ("protocol version")) :=
  (c6_version_read 0 0 0 0 0 0 0 0 0 0 0 0 []).2.2.2.2
    (by decide) (by decide) (by decide) (by decide)

/-- C7: `SecurityResult` is a big-endian u32, 0 for `Succeeded` and 1 for
`Failed` in both directions, and any other u32 value yields
`Unexpected("security result")`. -/
theorem c7_security_result_codec (a b c d : Byte) (rest : List Byte) :
    SecurityResult.write_to .Succeeded = [0, 0, 0, 0] ∧
    SecurityResult.write_to .Failed = [0, 0, 0, 1] ∧
    SecurityResult.read_from ([0, 0, 0, 0] ++ rest) = .ok (.Succeeded, rest) ∧
    SecurityResult.read_from ([0, 0, 0, 1] ++ rest) = .ok (.Failed, rest) ∧
    (((a.val * 256 + b.val) * 256 + c.val) * 256 + d.val ≠ 0 →
     ((a.val * 256 + b.val) * 256 + c.val) * 256 + d.val ≠ 1 →
     SecurityResult.read_from (a :: b :: c :: d :: rest) =
       .error (.Unexpected ("security result"))) := by
  refine ⟨rfl, rfl, rfl, rfl, ?_⟩
  intro h0 h1
  simp [SecurityResult.read_from, readU32, ok_bind, h0, h1]

/-- C7 witness: the u32 value 2 is rejected. -/
theorem c7_security_result_codec_witness :
    SecurityResult.read_from ((0 : Byte) :: 0 :: 0 :: 2 :: []) =
      .error (.Unexpected ("security result")) :=
  (c7_security_result_codec 0 0 0 2 []).2.2.2.2 (by decide) (by decide)

/-- C8: `PixelFormat::write_to` emits exactly 16 bytes, the write/read round
trip holds for every pixel format, and `read_from` consumes exactly 16 bytes
of any source, reconstructing the fields from the first 13 and discarding the
3 padding bytes. -/
theorem c8_pixelformat_16_byte_codec (pf : PixelFormat)
    (b0 b1 b2 b3 b4 b5 b6 b7 b8 b9 b10 b11 b12 b13 b14 b15 : Byte)
    (rest : List Byte) :
    (PixelFormat.write_to pf).length = 16 ∧
    PixelFormat.read_from (PixelFormat.write_to pf ++ rest) = .ok (pf, rest) ∧
    PixelFormat.read_from
      ([b0, b1, b2, b3, b4, b5, b6, b7, b8, b9, b10, b11, b12, b13, b14, b15]
        ++ rest) =
      .ok ({ bits_per_pixel := b0, depth := b1,
             big_endian := b2.val != 0, true_colour := b3.val != 0,
             red_max := ⟨b4.val * 256 + b5.val, by
               have := b4.isLt; have := b5.isLt; omega⟩,
             green_max := ⟨b6.val * 256 + b7.val, by
               have := b6.isLt; have := b7.isLt; omega⟩,
             blue_max := ⟨b8.val * 256 + b9.val, by
               have := b8.isLt; have := b9.isLt; omega⟩,
             red_shift := b10, green_shift := b11, blue_shift := b12 },
        rest) := by
  refine ⟨?_, pixelformat_roundtrip pf rest, ?_⟩
  · obtain ⟨bpp, dep, be, tc, rm, gm, bm, rs, gs, bs⟩ := pf
    simp [PixelFormat.write_to, writeU8, writeU16, writeBool]
  · simp [PixelFormat.read_from, readU8, readU16, readExact, ok_bind]

/-- C8 witness: the byte count evaluated at the RGB8888 pixel format. -/
theorem c8_pixelformat_16_byte_codec_witness :
    (PixelFormat.write_to
      ⟨32, 24, true, true, 255, 255, 255, 0, 8, 16⟩).length = 16 :=
  (c8_pixelformat_16_byte_codec ⟨32, 24, true, true, 255, 255, 255, 0, 8, 16⟩
    0 0 0 0 0 0 0 0 0 0 0 0 0 0 0 0 []).1

/-- C9: padding bytes are consumed and discarded, never validated: each
listed decoder returns the same result on two inputs differing only in the
values of their padding bytes. -/
theorem c9_padding_not_validated :
    (∀ (b0 b1 b2 b3 b4 b5 b6 b7 b8 b9 b10 b11 b12 p1 p2 p3 q1 q2 q3 : Byte)
       (rest : List Byte),
      PixelFormat.read_from
        ([b0, b1, b2, b3, b4, b5, b6, b7, b8, b9, b10, b11, b12, p1, p2, p3]
          ++ rest) =
      PixelFormat.read_from
        ([b0, b1, b2, b3, b4, b5, b6, b7, b8, b9, b10, b11, b12, q1, q2, q3]
          ++ rest)) ∧
    (∀ (p1 p2 p3 q1 q2 q3 : Byte) (rest : List Byte),
      C2S.read_from (0 :: p1 :: p2 :: p3 :: rest) =
      C2S.read_from (0 :: q1 :: q2 :: q3 :: rest)) ∧
    (∀ (p q : Byte) (rest : List Byte),
      C2S.read_from (2 :: p :: rest) = C2S.read_from (2 :: q :: rest)) ∧
    (∀ (d p1 p2 q1 q2 : Byte) (rest : List Byte),
      C2S.read_from (4 :: d :: p1 :: p2 :: rest) =
      C2S.read_from (4 :: d :: q1 :: q2 :: rest)) ∧
    (∀ (p1 p2 p3 q1 q2 q3 : Byte) (rest : List Byte),
      C2S.read_from (6 :: p1 :: p2 :: p3 :: rest) =
      C2S.read_from (6 :: q1 :: q2 :: q3 :: rest)) ∧
    (∀ (p q : Byte) (rest : List Byte),
      S2C.read_from (0 :: p :: rest) = S2C.read_from (0 :: q :: rest)) ∧
    (∀ (p q : Byte) (rest : List Byte),
      S2C.read_from (1 :: p :: rest) = S2C.read_from (1 :: q :: rest)) ∧
    (∀ (p1 p2 p3 q1 q2 q3 : Byte) (rest : List Byte),
      S2C.read_from (3 :: p1 :: p2 :: p3 :: rest) =
      S2C.read_from (3 :: q1 :: q2 :: q3 :: rest)) := by
  refine ⟨?_, ?_, ?_, ?_, ?_, ?_, ?_, ?_⟩
  · intros
    simp [PixelFormat.read_from, readU8, readU16, readExact, ok_bind]
  · intros
    simp [C2S.read_from, readExact, ok_bind, byteVal0]
  · intros
    simp [C2S.read_from, readExact, readU8, ok_bind, byteVal2]
  · intros
    simp [C2S.read_from, readExact, readU8, ok_bind, byteVal4]
  · intros
    simp [C2S.read_from, readExact, readU8, ok_bind, byteVal6]
  · intros
    simp [S2C.read_from, readExact, readU8, ok_bind, byteVal0]
  · intros
    simp [S2C.read_from, readExact, readU8, ok_bind, byteVal1]
  · intros
    simp [S2C.read_from, readExact, readU8, ok_bind, byteVal3]

/-- C9 witness: nonzero padding after the SetPixelFormat type byte decodes
like zero padding. -/
theorem c9_padding_not_validated_witness :
    C2S.read_from (0 :: 7 :: 8 :: 9 :: []) =
      C2S.read_from (0 :: 0 :: 0 :: 0 :: []) :=
  c9_padding_not_validated.2.1 7 8 9 0 0 0 []

/-- C10 counterexample: the one-element list `[Unknown 0]` has at most 255
entries, yet its wire byte 0 decodes back as `Invalid`, so `read_from` on the
produced bytes does not return the same list. -/
theorem c10_unknown_zero_list_not_roundtrip :
    SecurityTypes.read_from (SecurityTypes.write_to ⟨[.Unknown 0]⟩) =
      .ok (⟨[.Invalid]⟩, []) ∧
    SecurityTypes.read_from (SecurityTypes.write_to ⟨[.Unknown 0]⟩) ≠
      .ok (⟨[.Unknown 0]⟩, []) := by
  constructor
  · rfl
  · rw [show SecurityTypes.read_from (SecurityTypes.write_to ⟨[.Unknown 0]⟩) =
        .ok (⟨[.Invalid]⟩, []) from rfl]
    intro h
    injection h with h1
    rw [Prod.mk.injEq] at h1
    have := h1.1
    rw [SecurityTypes.mk.injEq] at this
    exact absurd this (by decide)

/-- C10 (amended): `SecurityTypes::write_to` emits `len % 256` as the count
byte yet still writes one byte per entry; lists of at most 255 entries whose
entries decode back to themselves round-trip, and the bytes of a list longer
than 255 entries decode (if at all) to a list of different length. -/
theorem c10_securitytypes_count_mod_256 (ts : List SecurityType)
    (rest : List Byte) :
    (SecurityTypes.write_to ⟨ts⟩).length = 1 + ts.length ∧
    (SecurityTypes.write_to ⟨ts⟩).head? = some (castU8 ts.length) ∧
    (ts.length ≤ 255 → (∀ t ∈ ts, t.wireFaithful = true) →
      SecurityTypes.read_from (SecurityTypes.write_to ⟨ts⟩ ++ rest) =
        .ok (⟨ts⟩, rest)) ∧
    (255 < ts.length → ∀ (out : SecurityTypes) (r2 : List Byte),
      SecurityTypes.read_from (SecurityTypes.write_to ⟨ts⟩ ++ rest) =
        .ok (out, r2) → out ≠ ⟨ts⟩) := by
  refine ⟨?_, rfl, ?_, ?_⟩
  · simp only [SecurityTypes.write_to, writeU8, List.length_append,
      List.length_cons, List.length_nil, securityTypesBody_length]
  · intro hlen hf
    have hv : (castU8 ts.length).val = ts.length := by
      simp [castU8]; omega
    simp only [SecurityTypes.write_to, SecurityTypes.read_from, writeU8,
      List.cons_append, List.nil_append, List.append_assoc, readU8, ok_bind,
      hv, readSecurityTypeList_roundtrip ts hf rest]
    rfl
  · intro hlen out r2 h
    have hv : (castU8 ts.length).val = ts.length % 256 := rfl
    simp only [SecurityTypes.write_to, SecurityTypes.read_from, writeU8,
      List.cons_append, List.nil_append, List.append_assoc, readU8, ok_bind,
      hv] at h
    cases hs : readSecurityTypeList (ts.length % 256)
        ((ts.map SecurityType.write_to).flatten ++ rest) with
    | error e => rw [hs, error_bind] at h; exact Except.noConfusion h
    | ok a =>
        obtain ⟨ts2, l2⟩ := a
        rw [hs, ok_bind] at h
        simp only [pure, Except.pure, Except.ok.injEq, Prod.mk.injEq] at h
        have hlen2 := readSecurityTypeList_len _ _ _ _ hs
        intro heq
        rw [← h.1, SecurityTypes.mk.injEq] at heq
        have : ts2.length = ts.length := by rw [heq]
        omega

/-- C10 witness: a two-element faithful list round-trips. -/
theorem c10_securitytypes_count_mod_256_witness :
    SecurityTypes.read_from
      (SecurityTypes.write_to ⟨[.None, .VncAuthentication]⟩ ++ []) =
      .ok (⟨[.None, .VncAuthentication]⟩, []) :=
  (c10_securitytypes_count_mod_256 [.None, .VncAuthentication] []).2.2.1
    (by decide) (by decide)
